import Mathlib

/-!
Verification development for the multi-service video-URL resolution pipeline
of `src/index.js` (class `RealVideoDownloader`, lines 1204-1691).

The JavaScript code is shallowly embedded: pure helpers become Lean
functions over `String`/`List Char`; the network (axios) and the HTML/DOM
layer (cheerio selector queries) are external collaborators and are
modelled by an explicit environment `Env` of total oracle functions, one
per distinct request or selector query that the source performs.  Control
flow, string processing, the regular expressions of the source, defaulting
rules, deduplication and ranking are embedded faithfully from the source.
JavaScript exceptions are modelled with `Except`; a JavaScript object
field that may be absent (`undefined`) is modelled with `Option`;
JavaScript string truthiness (empty string is falsy) is modelled
explicitly.
-/

/-- Membership in the JavaScript `\s` character class (the whitespace set
used by `RegExp`, `String.prototype.trim` and friends). -/
def jsWhitespace (c : Char) : Bool :=
  c = ' ' || c = '\t' || c = '\n' || c = '\x0b' || c = '\x0c' || c = '\r' ||
  c.val = 0x00A0 || c.val = 0x1680 || (0x2000 ≤ c.val && c.val ≤ 0x200A) ||
  c.val = 0x2028 || c.val = 0x2029 || c.val = 0x202F || c.val = 0x205F ||
  c.val = 0x3000 || c.val = 0xFEFF

/-- JavaScript line terminators: the characters NOT matched by the regex
metacharacter `.` (dot) without the `s` flag. -/
def lineTerm (c : Char) : Bool :=
  c = '\n' || c = '\r' || c.val = 0x2028 || c.val = 0x2029

/-- Strips the literal character sequence `p` from the front of `s`
(case-sensitive), returning the remainder on success. -/
def stripL : List Char → List Char → Option (List Char)
  | [], s => some s
  | _ :: _, [] => none
  | p :: ps, c :: cs => if c = p then stripL ps cs else none

/-- Strips the literal character sequence `p` from the front of `s`,
comparing characters case-insensitively (models a regex `i` flag on a
literal). -/
def stripCIL : List Char → List Char → Option (List Char)
  | [], s => some s
  | _ :: _, [] => none
  | p :: ps, c :: cs => if c.toLower = p.toLower then stripCIL ps cs else none

/-- Boolean test for `stripL`. -/
def startsWithL (p s : List Char) : Bool := (stripL p s).isSome

/-- JavaScript `String.prototype.includes` for a non-empty search string:
true when `sub` occurs as a contiguous substring of `s`. -/
def jsIncludes : List Char → List Char → Bool
  | [], _ => false
  | c :: cs, sub => startsWithL sub (c :: cs) || jsIncludes cs sub

/-- String-level wrapper for `jsIncludes`. -/
def jsIncludesS (s sub : String) : Bool := jsIncludes s.toList sub.toList

/-- First occurrence split: returns the part before and the part after the
first occurrence of `pat` in the list, if any. -/
def splitFirst (pat : List Char) : List Char → Option (List Char × List Char)
  | [] => if pat.isEmpty then some ([], []) else none
  | c :: cs =>
    match stripL pat (c :: cs) with
    | some rest => some ([], rest)
    | none =>
      match splitFirst pat cs with
      | some (b, a) => some (c :: b, a)
      | none => none

/-- JavaScript `String.prototype.replace` with a string pattern: replaces
only the FIRST occurrence of `pat` by `rep` (all patterns used by the
source are non-empty). -/
def replaceFirst (s pat rep : String) : String :=
  match splitFirst pat.toList s.toList with
  | some (b, a) => ⟨b ++ rep.toList ++ a⟩
  | none => s

/-- JavaScript `String.prototype.trim`: drops `\s` characters from both
ends. -/
def jsTrim (s : String) : String :=
  ⟨((s.toList.dropWhile jsWhitespace).reverse.dropWhile jsWhitespace).reverse⟩

/-- JavaScript `String.prototype.toLowerCase` (ASCII fragment, which is
all the source relies on). -/
def toLowerStr (s : String) : String := ⟨s.toList.map Char.toLower⟩

/-- JavaScript truthiness of a possibly-absent string value: `undefined`
and the empty string are falsy. -/
def jsTruthy : Option String → Bool
  | some s => s ≠ ""
  | none => false

/-- JavaScript `a || b || ... || dflt` over possibly-absent strings:
the first truthy operand, else the final default. -/
def firstTruthy : List (Option String) → String → String
  | [], dflt => dflt
  | x :: rest, dflt => if jsTruthy x then x.getD "" else firstTruthy rest dflt

/-- JavaScript `a || b || ...` over possibly-absent strings with no
default: the first truthy operand, if any. -/
def firstTruthyOpt : List (Option String) → Option String
  | [] => none
  | x :: rest => if jsTruthy x then x else firstTruthyOpt rest

/-!
`isValidUrl` (src/index.js:1286-1288):

    isValidUrl(url) { return url && url.match(/^https?:\/\/[^\s/$.?#].[^\s]*$/i); }

The regex is anchored at both ends.  After the case-insensitive scheme
(`http://` or `https://`) it requires: one character that is neither `\s`
whitespace nor one of `/ $ . ? #`; one further character that is not a
line terminator (the regex dot); then only non-whitespace characters to
the end.
-/

/-- Body of the `isValidUrl` regex after the scheme has been stripped. -/
def validAfterScheme : List Char → Bool
  | c1 :: c2 :: rest =>
    !jsWhitespace c1 && !(['/', '$', '.', '?', '#'].contains c1) &&
    !lineTerm c2 && rest.all (fun c => !jsWhitespace c)
  | _ => false

/-- Embedding of `isValidUrl` (src/index.js:1286-1288).  The leading
`url &&` of the source makes the empty string invalid; the regex would
reject it anyway. -/
def isValidUrl (url : String) : Bool :=
  url ≠ "" &&
  (match stripCIL "https://".toList url.toList with
   | some rest => validAfterScheme rest
   | none =>
     match stripCIL "http://".toList url.toList with
     | some rest => validAfterScheme rest
     | none => false)

/-!
`getVideoId` (src/index.js:1269-1283) applies five regular expressions in
order and returns the first capturing group of the first one that
matches; each pattern is an alternation of literal heads followed by a
greedy non-empty character class.  JavaScript `match` semantics: the
match is found at the leftmost position at which some alternative
matches, and alternatives are tried left to right at each position.
-/

/-- Character class `[^&\n?#]` used by the YouTube and Facebook capture
groups. -/
def ytClass (c : Char) : Bool := !(['&', '\n', '?', '#'].contains c)

/-- Character class `[^\/\?]` used by the Instagram and TikTok capture
groups. -/
def igClass (c : Char) : Bool := !(['/', '?'].contains c)

/-- Tries, at the current position only, each literal alternative in
order, followed by a greedy non-empty capture of class `cls`. -/
def tryAltsAt (alts : List (List Char)) (cls : Char → Bool) (cs : List Char) :
    Option String :=
  alts.findSome? fun a =>
    match stripL a cs with
    | some rest =>
      let cap := rest.takeWhile cls
      if cap.isEmpty then none else some ⟨cap⟩
    | none => none

/-- Leftmost-position scan of `tryAltsAt` over the whole string. -/
def scanAlts (alts : List (List Char)) (cls : Char → Bool) : List Char → Option String
  | [] => none
  | c :: cs =>
    match tryAltsAt alts cls (c :: cs) with
    | some g => some g
    | none => scanAlts alts cls cs

/-- Pattern 1: `(?:youtube\.com\/(?:watch\?v=|embed\/|shorts\/)|youtu\.be\/)([^&\n?#]+)`. -/
def matchYt1 (url : String) : Option String :=
  scanAlts ["youtube.com/watch?v=".toList, "youtube.com/embed/".toList,
            "youtube.com/shorts/".toList, "youtu.be/".toList] ytClass url.toList

/-- Pattern 2: `youtube\.com\/v\/([^&\n?#]+)`. -/
def matchYt2 (url : String) : Option String :=
  scanAlts ["youtube.com/v/".toList] ytClass url.toList

/-- Pattern 3: `(?:instagram\.com\/(?:p|reel|tv)\/|instagr\.am\/p\/)([^\/\?]+)`. -/
def matchInsta (url : String) : Option String :=
  scanAlts ["instagram.com/p/".toList, "instagram.com/reel/".toList,
            "instagram.com/tv/".toList, "instagr.am/p/".toList] igClass url.toList

/-- Attempt, at the current position, the first TikTok alternative
`tiktok\.com\/@[^\/]+\/video\/` (a literal, a greedy non-empty run of
non-slash characters, then a literal) with capture `[^\/\?]+`; the run
cannot contain `/` and the follow literal starts with `/`, so the greedy
run is exactly the text up to the next slash. -/
def tryTiktokProfileAt (cs : List Char) : Option String :=
  match stripL "tiktok.com/@".toList cs with
  | some rest =>
    let user := rest.takeWhile (fun c => c ≠ '/')
    if user.isEmpty then none
    else
      match stripL "/video/".toList (rest.drop user.length) with
      | some rest2 =>
        let cap := rest2.takeWhile igClass
        if cap.isEmpty then none else some ⟨cap⟩
      | none => none
  | none => none

/-- Pattern 4 at one position: the profile-video alternative, then
`vm\.tiktok\.com\/` and `tiktok\.com\/t\/`. -/
def tryTiktokAt (cs : List Char) : Option String :=
  match tryTiktokProfileAt cs with
  | some g => some g
  | none => tryAltsAt ["vm.tiktok.com/".toList, "tiktok.com/t/".toList] igClass cs

/-- Pattern 4: `(?:tiktok\.com\/@[^\/]+\/video\/|vm\.tiktok\.com\/|tiktok\.com\/t\/)([^\/\?]+)`. -/
def scanTiktok : List Char → Option String
  | [] => none
  | c :: cs =>
    match tryTiktokAt (c :: cs) with
    | some g => some g
    | none => scanTiktok cs

/-- Pattern 4 wrapper over the whole URL. -/
def matchTiktok (url : String) : Option String :=
  scanTiktok url.toList

/-- Pattern 5: `(?:facebook\.com\/watch\?v=|fb\.watch\/)([^&\n?#]+)`. -/
def matchFb (url : String) : Option String :=
  scanAlts ["facebook.com/watch?v=".toList, "fb.watch/".toList] ytClass url.toList

/-- Embedding of `getVideoId` (src/index.js:1269-1283): the five patterns
are tried in source order and the first capture wins. -/
def getVideoId (url : String) : Option String :=
  match matchYt1 url with
  | some m => some m
  | none =>
    match matchYt2 url with
    | some m => some m
    | none =>
      match matchInsta url with
      | some m => some m
      | none =>
        match matchTiktok url with
        | some m => some m
        | none => matchFb url

/-!
Quality and format labels are pulled out of anchor text with small
regular expressions (src/index.js:1538-1539 and 1602-1603).  Every
alternative is either a literal, `\d+` followed by a literal (the runs
`\d+p` and `\d+kbps`; the literal begins with a non-digit, so the greedy
run is exactly the maximal digit run), or `\d+x\d+`.  Matching is
leftmost-position first, then alternative order.
-/

inductive QTok where
  | lit (s : List Char)
  | digitsSuffix (s : List Char)
  | digitsXdigits
  deriving DecidableEq

/-- Matches one token at the current position, returning the matched
text. -/
def matchTokAt (cs : List Char) : QTok → Option (List Char)
  | .lit s => if startsWithL s cs then some s else none
  | .digitsSuffix s =>
    let ds := cs.takeWhile Char.isDigit
    if ds.isEmpty then none
    else if startsWithL s (cs.drop ds.length) then some (ds ++ s) else none
  | .digitsXdigits =>
    let ds := cs.takeWhile Char.isDigit
    if ds.isEmpty then none
    else
      match cs.drop ds.length with
      | 'x' :: rest =>
        let ds2 := rest.takeWhile Char.isDigit
        if ds2.isEmpty then none else some (ds ++ 'x' :: ds2)
      | _ => none

/-- Leftmost scan of an alternation of tokens; returns the matched text
(capture group 0 = capture group 1 for these patterns). -/
def scanQ (toks : List QTok) : List Char → Option String
  | [] => none
  | c :: cs =>
    match toks.findSome? (matchTokAt (c :: cs)) with
    | some m => some ⟨m⟩
    | none => scanQ toks cs

/-- Quality pattern of `parseSSYouTube` (src/index.js:1538), applied to
already-lowercased text: `/(\d+p|hd|sd|high|low|\d+x\d+)/`. -/
def ssQualityToks : List QTok :=
  [.digitsSuffix ['p'], .lit "hd".toList, .lit "sd".toList,
   .lit "high".toList, .lit "low".toList, .digitsXdigits]

/-- Format pattern of `parseSSYouTube` (src/index.js:1539):
`/(mp4|webm|mp3|m4a)/`. -/
def ssFormatToks : List QTok :=
  [.lit "mp4".toList, .lit "webm".toList, .lit "mp3".toList, .lit "m4a".toList]

/-- Quality pattern of `parseLoaderTo` (src/index.js:1602):
`/(\d+p|HD|SD|\d+kbps|high|low)/i`; the `i` flag plus the trailing
`toLowerCase` are modelled by scanning the lowercased text. -/
def loaderQualityToks : List QTok :=
  [.digitsSuffix ['p'], .lit "hd".toList, .lit "sd".toList,
   .digitsSuffix "kbps".toList, .lit "high".toList, .lit "low".toList]

/-- Format pattern of `parseLoaderTo` (src/index.js:1603):
`/(mp4|mp3|webm)/i`, likewise scanned on the lowercased text. -/
def loaderFormatToks : List QTok :=
  [.lit "mp4".toList, .lit "mp3".toList, .lit "webm".toList]

/-!  Data model of the resolution pipeline. -/

/-- A resolved download link as returned by the adapters
(`ResolvedLink`).  The 9convert, ssyoutube and loader.to link objects of
the source carry no `size` field; absence is `none`. -/
structure Link where
  directUrl : String
  quality : String
  format : String
  size : Option String
  type : String
  service : String
  deriving DecidableEq, Repr

/-- An unresolved candidate produced by `extractDownloadItems`
(src/index.js:1291-1319); `vid` is `null` for the 9convert call. -/
structure Item where
  service : String
  quality : String
  format : String
  size : String
  type : String
  k : String
  fquality : String
  vid : Option String
  needsConversion : Bool
  deriving DecidableEq, Repr

/-- One row element matched by a cheerio row selector inside
`extractDownloadItems`, reduced to the attributes and text the source
reads from it.  `hasBtn` models `$btn.length > 0`; the attribute reads
(`attr`) yield `undefined` when absent, hence `Option String`. -/
structure Row where
  hasBtn : Bool
  cellText : String
  sizeText : String
  ftype : Option String
  dataFormat : Option String
  rel : Option String
  dataK : Option String
  dataKey : Option String
  fqualityAttr : Option String
  deriving DecidableEq, Repr

/-- Embedding of `extractDownloadItems` (src/index.js:1291-1319).  Per
row with a download button: quality is the trimmed first cell text or
`auto`; size likewise or `unknown`; format is
`data-ftype || data-format || mp4`; the conversion key is
`rel || data-k || data-key` and the row is skipped when it is falsy;
the type is `audio` when the format is `mp3` or `m4a`, else the
caller-supplied section type. -/
def extractDownloadItems (service : String) (videoId : Option String)
    (ty : String) : List Row → List Item
  | [] => []
  | row :: rest =>
    let tail := extractDownloadItems service videoId ty rest
    if row.hasBtn then
      let quality := if jsTrim row.cellText = "" then "auto" else jsTrim row.cellText
      let size := if jsTrim row.sizeText = "" then "unknown" else jsTrim row.sizeText
      let format := firstTruthy [row.ftype, row.dataFormat] "mp4"
      match firstTruthyOpt [row.rel, row.dataK, row.dataKey] with
      | some k =>
        { service := service, quality := quality, format := format,
          size := size,
          type := if format = "mp3" ∨ format = "m4a" then "audio" else ty,
          k := k,
          fquality := firstTruthy [row.fqualityAttr] (replaceFirst quality "kbps" ""),
          vid := videoId, needsConversion := true } :: tail
      | none => tail
    else tail

/-- Deduplication key of `removeDuplicates` (src/index.js:1672): the
template literal joins the three fields with `-`. -/
def dedupKey (d : Link) : String :=
  d.directUrl ++ "-" ++ d.quality ++ "-" ++ d.format

/-- Worker of `removeDuplicates` with the `seen` set made explicit. -/
def removeDuplicatesAux (seen : List String) : List Link → List Link
  | [] => []
  | d :: rest =>
    if dedupKey d ∈ seen then removeDuplicatesAux seen rest
    else d :: removeDuplicatesAux (dedupKey d :: seen) rest

/-- Embedding of `removeDuplicates` (src/index.js:1669-1677): keeps each
link whose key has not been seen before, in order. -/
def removeDuplicates (downloads : List Link) : List Link :=
  removeDuplicatesAux [] downloads

/-- Own entries of the `qualityOrder` object literal of `sortByQuality`
(src/index.js:1680-1684); every key is lowercase. -/
def qualityOrderOwn (s : String) : Option Nat :=
  if s = "4k" then some 7 else if s = "2160p" then some 7
  else if s = "1440p" then some 6 else if s = "1080p" then some 5
  else if s = "720p" then some 4 else if s = "480p" then some 3
  else if s = "360p" then some 2 else if s = "240p" then some 1
  else if s = "auto" then some 0 else if s = "unknown" then some 0
  else if s = "hd" then some 5 else if s = "sd" then some 3
  else if s = "high" then some 5 else if s = "low" then some 1
  else none

/-- Property names an object literal inherits from `Object.prototype`
(the Annex B accessors included): a bracket lookup with one of these
keys returns the inherited function — or, for `__proto__`, the
prototype object — instead of `undefined`.  The lookup is
case-sensitive and the source lowercases its key first, so only the
all-lowercase names `constructor` and `__proto__` are reachable. -/
def protoProps : List String :=
  ["constructor", "hasOwnProperty", "isPrototypeOf", "propertyIsEnumerable",
   "toLocaleString", "toString", "valueOf", "__defineGetter__",
   "__defineSetter__", "__lookupGetter__", "__lookupSetter__", "__proto__"]

/-- A JavaScript value in score position: a number, or a truthy
non-number (an inherited function or object) whose arithmetic yields
NaN. -/
inductive JsNum where
  | num (n : Nat)
  | nan
  deriving DecidableEq, Repr

/-- Embedding of `qualityOrder[q.toLowerCase()] || 0`
(src/index.js:1687-1688).  An own entry yields its numeric value (the
entries with value 0 are falsy and `|| 0` re-defaults them to 0); a key
that is an inherited `Object.prototype` property yields a truthy
non-number that survives the `||` and behaves as NaN in the
subtraction; any other key reads `undefined`, which is falsy and
defaults to 0. -/
def qualityScore (q : String) : JsNum :=
  let s := toLowerStr q
  match qualityOrderOwn s with
  | some n => .num n
  | none => if protoProps.contains s then .nan else .num 0

/-- The numeric value of a score; used to state order properties of
links whose labels do not hit the prototype chain. -/
def scoreNat (d : Link) : Nat :=
  match qualityScore d.quality with
  | .num n => n
  | .nan => 0

/-- ECMAScript `SortCompare` of the comparator
`(a, b) => bScore - aScore` (src/index.js:1686-1690): a NaN comparator
result counts as +0, so any pair involving an inherited-property label
compares equal. -/
def sortCompare (a b : Link) : Int :=
  match qualityScore a.quality, qualityScore b.quality with
  | .num x, .num y => (y : Int) - (x : Int)
  | _, _ => 0

/-- Ordered insert realising the sort: the element being inserted comes
earlier in the input than every element of the list and is placed
before the first element it need not follow (`sortCompare ≤ 0`), so on
comparator ties the earlier element stays first. -/
def insertByQuality (x : Link) : List Link → List Link
  | [] => [x]
  | y :: ys =>
    if sortCompare x y ≤ 0 then x :: y :: ys
    else y :: insertByQuality x ys

/-- Embedding of `sortByQuality` (src/index.js:1679-1691) as the stable
sort by the `SortCompare` relation.  ECMAScript mandates exactly this
result whenever the comparator is consistent (no NaN result, that is,
no prototype-chain label in the input); for an inconsistent comparator
the standard leaves the order implementation-defined, and on a
two-element array a single comparison is performed, whose NaN (+0)
outcome keeps input order — which is what this realisation yields. -/
def sortByQuality : List Link → List Link
  | [] => []
  | x :: xs => insertByQuality x (sortByQuality xs)

/-!  Environment: network and DOM oracles.

The axios client and the cheerio selector engine are external
collaborators of the code under verification.  Each network call of the
source is one oracle returning either a transport error (a thrown axios
fault, modelled as `Except.error`) or a response; each cheerio selector
query over a response body is one oracle from the raw body to the list
of matched elements, reduced to the attributes and text the source then
reads.  The fixed one-second `delay` calls only affect timing and have
no embedded counterpart.
-/

/-- JSON envelope consumed from the two-phase services: a status
sentinel, an optional message and an HTML fragment under `result`. -/
structure AjaxResp where
  status : String
  mess : Option String
  result : String
  deriving DecidableEq, Repr

/-- One anchor or button element matched by a link selector, reduced to
its `href` attribute (absent is `none`) and its visible text. -/
structure Anchor where
  href : Option String
  text : String
  deriving DecidableEq, Repr

/-- Oracles for every request and selector query of the four adapters. -/
structure Env where
  /-- POST y2mate `/mates/analyzeV2/ajax` for a source URL. -/
  y2mateAnalyze : String → Except String AjaxResp
  /-- Rows matched by the mp4-section selector of src/index.js:1358. -/
  y2mateVideoRows : String → List Row
  /-- Rows matched by the mp3-section selector of src/index.js:1359. -/
  y2mateAudioRows : String → List Row
  /-- POST y2mate `/mates/convertV2/ajax` with `vid` and `k`. -/
  y2mateConvert : Option String → String → Except String AjaxResp
  /-- Hrefs of the anchors in a y2mate convert result fragment. -/
  y2mateAnchors : String → List String
  /-- POST 9convert `/api/ajaxSearch/index` for a source URL. -/
  nineAnalyze : String → Except String AjaxResp
  /-- Rows matched by the selector of src/index.js:1451. -/
  nineRows : String → List Row
  /-- POST 9convert `/api/ajaxConvert/index` with `k`. -/
  nineConvert : String → Except String AjaxResp
  /-- Hrefs of the anchors in a 9convert convert result fragment. -/
  nineAnchors : String → List String
  /-- GET of the rewritten ssyoutube URL, returning raw HTML. -/
  ssGet : String → Except String String
  /-- Elements matched by the download selector of src/index.js:1533. -/
  ssAnchors : String → List Anchor
  /-- Matches of the `googlevideo.com` URL regex over the inline script
  text (src/index.js:1552-1553). -/
  ssScriptUrls : String → List String
  /-- GET of the loader.to button API URL, returning raw HTML. -/
  loaderGet : String → Except String String
  /-- Elements matched by the selector of src/index.js:1596. -/
  loaderAnchors : String → List Anchor

/-- Failure reasons that can reach the outer catch of an adapter. -/
inductive AdapterErr where
  | noVideoId
  | net (msg : String)
  | analyzeFailed (mess : Option String)
  deriving DecidableEq, Repr

/-- First anchor href that starts with `https://` (the attribute
selector of the convert-result query) and contains one of the given
substrings (the `filter` callback). -/
def pickAnchor (hosts : List String) (anchors : List String) : Option String :=
  anchors.find? fun h =>
    startsWithL "https://".toList h.toList && hosts.any (fun sub => jsIncludesS h sub)

/-- One convert attempt of `parseY2Mate` (src/index.js:1368-1408): the
per-item try/catch absorbs a failed request; a non-ok status, a missing
anchor and an invalid URL each simply contribute nothing. -/
def y2mateConvertStep (env : Env) (item : Item) : Option Link :=
  match env.y2mateConvert item.vid item.k with
  | .error _ => none
  | .ok resp =>
    if resp.status = "ok" then
      match pickAnchor ["googlevideo.com", "y2mate.com", "download"]
          (env.y2mateAnchors resp.result) with
      | some dl =>
        if isValidUrl dl then
          some { directUrl := dl, quality := item.quality, format := item.format,
                 size := some item.size, type := item.type, service := "y2mate" }
        else none
      | none => none
    else none

/-- Convert loop of `parseY2Mate` over the bounded candidate list; also
records, in order, the `(vid, k)` payload of every convert request
issued (one per item, before any outcome is known). -/
def y2mateConvertLoop (env : Env) : List Item → List Link × List (Option String × String)
  | [] => ([], [])
  | item :: rest =>
    let head := y2mateConvertStep env item
    let (links, reqs) := y2mateConvertLoop env rest
    ((match head with | some l => l :: links | none => links),
     (item.vid, item.k) :: reqs)

/-- Trace of one `parseY2Mate` invocation: the body outcome before the
outer catch, the full analyze-phase candidate list, and the convert
requests issued. -/
structure RunY2 where
  body : Except AdapterErr (List Link)
  candidates : List Item
  convertReqs : List (Option String × String)

/-- Embedding of the body of `parseY2Mate` (src/index.js:1322-1413).
The video id is required; the analyze call must return status `ok`; the
mp4-section and mp3-section rows are parsed (with section types `video`
and `audio`); at most `Math.min(3, downloads.length)` leading candidates
are converted. -/
def parseY2MateRun (env : Env) (url : String) : RunY2 :=
  match getVideoId url with
  | none => ⟨.error .noVideoId, [], []⟩
  | some vid =>
    match env.y2mateAnalyze url with
    | .error e => ⟨.error (.net e), [], []⟩
    | .ok resp =>
      if resp.status = "ok" then
        let items :=
          extractDownloadItems "y2mate" (some vid) "video" (env.y2mateVideoRows resp.result) ++
          extractDownloadItems "y2mate" (some vid) "audio" (env.y2mateAudioRows resp.result)
        ⟨.ok (y2mateConvertLoop env (items.take (min 3 items.length))).1, items,
         (y2mateConvertLoop env (items.take (min 3 items.length))).2⟩
      else ⟨.error (.analyzeFailed resp.mess), [], []⟩

/-- `parseY2Mate` as seen by its caller: the outer catch
(src/index.js:1414-1417) turns every body failure into `[]`. -/
def parseY2Mate (env : Env) (url : String) : List Link :=
  match (parseY2MateRun env url).body with
  | .ok links => links
  | .error _ => []

/-- One convert attempt of `parse9Convert` (src/index.js:1459-1497). -/
def nineConvertStep (env : Env) (item : Item) : Option Link :=
  match env.nineConvert item.k with
  | .error _ => none
  | .ok resp =>
    if resp.status = "ok" then
      match pickAnchor ["9convert.com", "download"] (env.nineAnchors resp.result) with
      | some dl =>
        if isValidUrl dl then
          some { directUrl := dl, quality := item.quality, format := item.format,
                 size := none, type := item.type, service := "9convert" }
        else none
      | none => none
    else none

/-- Convert loop of `parse9Convert`, recording the `k` payload of every
convert request issued. -/
def nineConvertLoop (env : Env) : List Item → List Link × List String
  | [] => ([], [])
  | item :: rest =>
    let head := nineConvertStep env item
    let (links, reqs) := nineConvertLoop env rest
    ((match head with | some l => l :: links | none => links), item.k :: reqs)

/-- Trace of one `parse9Convert` invocation. -/
structure Run9 where
  body : Except AdapterErr (List Link)
  candidates : List Item
  convertReqs : List String

/-- Embedding of the body of `parse9Convert` (src/index.js:1421-1502).
No video id is needed; the row extraction passes `null` for it and uses
the default section type `video`; at most `Math.min(2, downloads.length)`
leading candidates are converted. -/
def parse9ConvertRun (env : Env) (url : String) : Run9 :=
  match env.nineAnalyze url with
  | .error e => ⟨.error (.net e), [], []⟩
  | .ok resp =>
    if resp.status = "ok" then
      let items := extractDownloadItems "9convert" none "video" (env.nineRows resp.result)
      ⟨.ok (nineConvertLoop env (items.take (min 2 items.length))).1, items,
       (nineConvertLoop env (items.take (min 2 items.length))).2⟩
    else ⟨.error (.analyzeFailed none), [], []⟩

/-- `parse9Convert` as seen by its caller (outer catch at
src/index.js:1503-1506). -/
def parse9Convert (env : Env) (url : String) : List Link :=
  match (parse9ConvertRun env url).body with
  | .ok links => links
  | .error _ => []

/-- URL rewriting of `parseSSYouTube` (src/index.js:1515-1518): three
chained first-occurrence replacements. -/
def ssRewriteUrl (url : String) : String :=
  replaceFirst
    (replaceFirst (replaceFirst url "www.youtube.com" "ssyoutube.com")
      "youtube.com" "ssyoutube.com")
    "youtu.be/" "ssyoutube.com/watch?v="

/-- Anchor pass of `parseSSYouTube` (src/index.js:1533-1549): each
matched element with a truthy, valid href containing `googlevideo.com`
or `download` yields a link; quality and format come from the lowercased
element text via the two patterns, with defaults `auto` and `mp4`. -/
def ssAnchorLinks : List Anchor → List Link
  | [] => []
  | el :: rest =>
    let tail := ssAnchorLinks rest
    match el.href with
    | some h =>
      if isValidUrl h && (jsIncludesS h "googlevideo.com" || jsIncludesS h "download") then
        let text := toLowerStr el.text
        let format := (scanQ ssFormatToks text.toList).getD "mp4"
        { directUrl := h,
          quality := (scanQ ssQualityToks text.toList).getD "auto",
          format := format, size := none,
          type := if format = "mp3" ∨ format = "m4a" then "audio" else "video",
          service := "ssyoutube" } :: tail
      else tail
    | none => tail

/-- Script-text fallback of `parseSSYouTube` (src/index.js:1552-1564):
each regex-extracted URL that is valid and not already present in the
accumulated downloads is appended with quality `auto`, format `mp4`,
type `video`. -/
def ssScriptFold (downloads : List Link) : List String → List Link
  | [] => downloads
  | u :: rest =>
    if isValidUrl u && !(downloads.any (fun d => d.directUrl == u)) then
      ssScriptFold
        (downloads ++ [{ directUrl := u, quality := "auto", format := "mp4",
                         size := none, type := "video", service := "ssyoutube" }]) rest
    else ssScriptFold downloads rest

/-- Embedding of the body of `parseSSYouTube` (src/index.js:1510-1567). -/
def parseSSYouTubeBody (env : Env) (url : String) : Except AdapterErr (List Link) :=
  match env.ssGet (ssRewriteUrl url) with
  | .error e => .error (.net e)
  | .ok html => .ok (ssScriptFold (ssAnchorLinks (env.ssAnchors html)) (env.ssScriptUrls html))

/-- `parseSSYouTube` as seen by its caller (outer catch at
src/index.js:1569-1572). -/
def parseSSYouTube (env : Env) (url : String) : List Link :=
  match parseSSYouTubeBody env url with
  | .ok links => links
  | .error _ => []

/-- Anchor pass of `parseLoaderTo` (src/index.js:1596-1613): each
matched element with a truthy, valid href yields a link; quality and
format come from the element text via the case-insensitive patterns,
lowercased, with defaults `auto` and `mp4`; the type is `audio` exactly
for format `mp3`. -/
def loaderAnchorLinks : List Anchor → List Link
  | [] => []
  | el :: rest =>
    let tail := loaderAnchorLinks rest
    match el.href with
    | some h =>
      if isValidUrl h then
        let lowText := toLowerStr el.text
        let format := (scanQ loaderFormatToks lowText.toList).getD "mp4"
        { directUrl := h,
          quality := (scanQ loaderQualityToks lowText.toList).getD "auto",
          format := format, size := none,
          type := if format = "mp3" then "audio" else "video",
          service := "loader.to" } :: tail
      else tail
    | none => tail

/-- Embedding of the body of `parseLoaderTo` (src/index.js:1576-1616):
the video id is required and is appended to the fixed button API URL. -/
def parseLoaderToBody (env : Env) (url : String) : Except AdapterErr (List Link) :=
  match getVideoId url with
  | none => .error .noVideoId
  | some vid =>
    match env.loaderGet ("https://loader.to/api/button/dd/" ++ vid) with
    | .error e => .error (.net e)
    | .ok html => .ok (loaderAnchorLinks (env.loaderAnchors html))

/-- `parseLoaderTo` as seen by its caller (outer catch at
src/index.js:1618-1621). -/
def parseLoaderTo (env : Env) (url : String) : List Link :=
  match parseLoaderToBody env url with
  | .ok links => links
  | .error _ => []

/-- The `ResolutionResult` object of `getAllDirectUrls`.  The failure
branch of the source returns an object literal WITHOUT a `total` field
and the success branch one WITHOUT an `error` field; an absent field
reads as `undefined` in JavaScript and is `none` here. -/
structure ResolutionResult where
  success : Bool
  error : Option String
  downloads : List Link
  services : List String
  total : Option Nat
  deriving DecidableEq, Repr

/-- Embedding of `getAllDirectUrls` (src/index.js:1625-1667), paired
with the list of adapters invoked (the call-count instrumentation asked
for by the spec).  The four adapter promises never reject (each catches
internally), so every `Promise.allSettled` outcome is fulfilled and an
adapter contributes its links and its service name exactly when its
value is non-empty. -/
def getAllDirectUrlsRun (env : Env) (url : String) : ResolutionResult × List String :=
  if isValidUrl url then
    let r1 := parseY2Mate env url
    let r2 := parse9Convert env url
    let r3 := parseSSYouTube env url
    let r4 := parseLoaderTo env url
    let allDownloads :=
      (if 0 < r1.length then r1 else []) ++ (if 0 < r2.length then r2 else []) ++
      (if 0 < r3.length then r3 else []) ++ (if 0 < r4.length then r4 else [])
    let services :=
      (if 0 < r1.length then ["y2mate"] else []) ++
      (if 0 < r2.length then ["9convert"] else []) ++
      (if 0 < r3.length then ["ssyoutube"] else []) ++
      (if 0 < r4.length then ["loader.to"] else [])
    let sorted := sortByQuality (removeDuplicates allDownloads)
    (⟨decide (0 < sorted.length), none, sorted, services, some sorted.length⟩,
     ["y2mate", "9convert", "ssyoutube", "loader.to"])
  else
    (⟨false, some "Invalid URL format", [], [], none⟩, [])

/-- The `ResolutionResult` alone. -/
def getAllDirectUrls (env : Env) (url : String) : ResolutionResult :=
  (getAllDirectUrlsRun env url).1

/-!  Concrete environments used to evaluate the pipeline at specific
inputs. -/

/-- Environment in which every network request fails with a transport
error and every selector query is empty. -/
def envNull : Env where
  y2mateAnalyze := fun _ => .error "net"
  y2mateVideoRows := fun _ => []
  y2mateAudioRows := fun _ => []
  y2mateConvert := fun _ _ => .error "net"
  y2mateAnchors := fun _ => []
  nineAnalyze := fun _ => .error "net"
  nineRows := fun _ => []
  nineConvert := fun _ => .error "net"
  nineAnchors := fun _ => []
  ssGet := fun _ => .error "net"
  ssAnchors := fun _ => []
  ssScriptUrls := fun _ => []
  loaderGet := fun _ => .error "net"
  loaderAnchors := fun _ => []

/-- A source URL accepted by `isValidUrl` and carrying a YouTube video
id. -/
def goodUrl : String := "https://youtu.be/abc123"

/-- A 9convert table row carrying a 720p mp4 option with key `K1`. -/
def row720 : Row :=
  { hasBtn := true, cellText := "720p", sizeText := "10 MB",
    ftype := some "mp4", dataFormat := none, rel := some "K1",
    dataK := none, dataKey := none, fqualityAttr := none }

/-- A 9convert table row carrying a 360p mp4 option with key `K2`. -/
def row360 : Row :=
  { hasBtn := true, cellText := "360p", sizeText := "5 MB",
    ftype := some "mp4", dataFormat := none, rel := some "K2",
    dataK := none, dataKey := none, fqualityAttr := none }

/-- Environment of the isolation scenario: the y2mate, ssyoutube and
loader.to requests fail with transport errors (in particular the y2mate
adapter fails internally), while 9convert resolves two distinct links. -/
def envIso : Env :=
  { envNull with
    nineAnalyze := fun _ => .ok ⟨"ok", none, "H"⟩
    nineRows := fun _ => [row720, row360]
    nineConvert := fun k => .ok ⟨"ok", none, k⟩
    nineAnchors := fun s =>
      if s = "K1" then ["https://cdn.example.com/download/v1"]
      else ["https://cdn.example.com/download/v2"] }

/-- Environment identical to `envIso` except that 9convert offers the
same row twice, so its two resolved links coincide. -/
def envDup : Env :=
  { envNull with
    nineAnalyze := fun _ => .ok ⟨"ok", none, "H"⟩
    nineRows := fun _ => [row720, row720]
    nineConvert := fun k => .ok ⟨"ok", none, k⟩
    nineAnchors := fun _ => ["https://cdn.example.com/download/v1"] }

/-- A y2mate audio-section row with no format attribute, so the format
defaults to `mp4`. -/
def rowAud : Row :=
  { hasBtn := true, cellText := "128kbps", sizeText := "",
    ftype := none, dataFormat := none, rel := some "KA",
    dataK := none, dataKey := none, fqualityAttr := none }

/-- Environment in which the y2mate analyze page offers one audio-section
row whose format defaults to `mp4`, and its conversion succeeds. -/
def envAud : Env :=
  { envNull with
    y2mateAnalyze := fun _ => .ok ⟨"ok", none, "H"⟩
    y2mateAudioRows := fun _ => [rowAud]
    y2mateConvert := fun _ _ => .ok ⟨"ok", none, "C"⟩
    y2mateAnchors := fun _ => ["https://cdn.example.com/download/a1"] }

/-- Environment in which the y2mate analyze page offers ten video rows
(each with conversion key `K1`). -/
def envTen : Env :=
  { envNull with
    y2mateAnalyze := fun _ => .ok ⟨"ok", none, "H"⟩
    y2mateVideoRows := fun _ => List.replicate 10 row720
    nineAnalyze := fun _ => .ok ⟨"ok", none, "H"⟩
    nineRows := fun _ => List.replicate 10 row720 }

/-- Environment in which loader.to serves one mp3 download button. -/
def envLoaderMp3 : Env :=
  { envNull with
    loaderGet := fun _ => .ok "H"
    loaderAnchors := fun _ =>
      [{ href := some "https://cdn.example.com/f.mp3", text := "Download MP3 128kbps" }] }

/-!  General lemmas about deduplication. -/

/-- The deduplicated list is a sublist of the input: order is preserved
and surviving records are unchanged. -/
theorem removeDuplicatesAux_sublist (seen : List String) (ds : List Link) :
    (removeDuplicatesAux seen ds).Sublist ds := by
  induction ds generalizing seen with
  | nil => simp [removeDuplicatesAux]
  | cons d rest ih =>
    simp only [removeDuplicatesAux]
    split
    · exact (ih seen).trans (List.sublist_cons_self d rest)
    · exact (ih _).cons₂ d

/-- Every survivor of the worker has an unseen key and is the first
element of the input with its key. -/
theorem removeDuplicatesAux_first (seen : List String) (ds : List Link) (d : Link)
    (h : d ∈ removeDuplicatesAux seen ds) :
    dedupKey d ∉ seen ∧ ds.find? (fun e => dedupKey e == dedupKey d) = some d := by
  induction ds generalizing seen with
  | nil => simp [removeDuplicatesAux] at h
  | cons d0 rest ih =>
    simp only [removeDuplicatesAux] at h
    by_cases hk : dedupKey d0 ∈ seen
    · rw [if_pos hk] at h
      obtain ⟨hns, hfind⟩ := ih seen h
      refine ⟨hns, ?_⟩
      have hne : (dedupKey d0 == dedupKey d) = false := by
        simp only [beq_eq_false_iff_ne, ne_eq]
        intro he
        exact hns (he ▸ hk)
      simp [List.find?_cons, hne, hfind]
    · rw [if_neg hk] at h
      rcases List.mem_cons.mp h with rfl | h
      · exact ⟨hk, by simp [List.find?_cons]⟩
      · obtain ⟨hns, hfind⟩ := ih (dedupKey d0 :: seen) h
        have hne : dedupKey d ≠ dedupKey d0 := by
          intro he
          exact hns (by simp [he])
        refine ⟨fun hc => hns (List.mem_cons_of_mem _ hc), ?_⟩
        have hb : (dedupKey d0 == dedupKey d) = false := by
          simp only [beq_eq_false_iff_ne, ne_eq]
          exact fun he => hne he.symm
        simp [List.find?_cons, hb, hfind]

/-- The worker emits no two links with the same key, and no link whose
key is already in `seen`. -/
theorem removeDuplicatesAux_nodup (seen : List String) (ds : List Link) :
    ((removeDuplicatesAux seen ds).map dedupKey).Nodup := by
  induction ds generalizing seen with
  | nil => simp [removeDuplicatesAux]
  | cons d0 rest ih =>
    simp only [removeDuplicatesAux]
    split
    · exact ih seen
    · rename_i hk
      simp only [List.map_cons, List.nodup_cons]
      constructor
      · intro hmem
        obtain ⟨e, he, hkey⟩ := List.mem_map.mp hmem
        exact (removeDuplicatesAux_first _ _ _ he).1 (by simp [hkey])
      · exact ih _

/-- Every input link is represented in the output by a link with the
same key, provided the key was not already seen. -/
theorem removeDuplicatesAux_covers (seen : List String) (ds : List Link) (d : Link)
    (h : d ∈ ds) (hs : dedupKey d ∉ seen) :
    ∃ e ∈ removeDuplicatesAux seen ds, dedupKey e = dedupKey d := by
  induction ds generalizing seen with
  | nil => simp at h
  | cons d0 rest ih =>
    simp only [removeDuplicatesAux]
    by_cases hk : dedupKey d0 ∈ seen
    · rw [if_pos hk]
      rcases List.mem_cons.mp h with rfl | h
      · exact absurd hk hs
      · exact ih seen h hs
    · rw [if_neg hk]
      rcases List.mem_cons.mp h with rfl | h
      · exact ⟨d, List.mem_cons_self _ _, rfl⟩
      · by_cases he : dedupKey d = dedupKey d0
        · exact ⟨d0, List.mem_cons_self _ _, he.symm⟩
        · have hs2 : dedupKey d ∉ dedupKey d0 :: seen := by
            simp only [List.mem_cons]
            rintro (hc | hc)
            · exact he hc
            · exact hs hc
          obtain ⟨e, hmem, hkey⟩ := ih (dedupKey d0 :: seen) h hs2
          exact ⟨e, List.mem_cons_of_mem _ hmem, hkey⟩

/-!  General lemmas about the stable quality sort. -/

/-- Inserting permutes a cons. -/
theorem insertByQuality_perm (x : Link) (l : List Link) :
    (insertByQuality x l).Perm (x :: l) := by
  induction l with
  | nil => simp [insertByQuality]
  | cons y ys ih =>
    simp only [insertByQuality]
    split
    · exact List.Perm.refl _
    · exact (ih.cons y).trans (List.Perm.swap x y ys)

/-- The sort is a permutation of its input. -/
theorem sortByQuality_perm (l : List Link) : (sortByQuality l).Perm l := by
  induction l with
  | nil => simp [sortByQuality]
  | cons x xs ih => exact (insertByQuality_perm x (sortByQuality xs)).trans (ih.cons x)

/-- Membership in an insertion. -/
theorem mem_insertByQuality {z x : Link} {l : List Link} :
    z ∈ insertByQuality x l ↔ z = x ∨ z ∈ l := by
  rw [(insertByQuality_perm x l).mem_iff]
  simp

/-- On two links whose labels avoid the prototype chain, the comparator
orders by numeric score. -/
theorem sortCompare_le (x y : Link) (hx : qualityScore x.quality ≠ JsNum.nan)
    (hy : qualityScore y.quality ≠ JsNum.nan) :
    (sortCompare x y ≤ 0 ↔ scoreNat y ≤ scoreNat x) := by
  rcases hqx : qualityScore x.quality with nx | _
  · rcases hqy : qualityScore y.quality with ny | _
    · simp only [sortCompare, scoreNat, hqx, hqy]
      omega
    · exact absurd hqy hy
  · exact absurd hqx hx

/-- A strictly positive comparator result forces two numeric scores in
strict order (a NaN pair always compares as 0). -/
theorem sortCompare_not_le (x y : Link) (h : ¬sortCompare x y ≤ 0) :
    scoreNat x < scoreNat y := by
  rcases hqx : qualityScore x.quality with nx | _ <;>
    rcases hqy : qualityScore y.quality with ny | _ <;>
      simp only [sortCompare, scoreNat, hqx, hqy] at h ⊢ <;> omega

/-- Inserting a numeric-label link into a descending list of
numeric-label links keeps it descending. -/
theorem insertByQuality_pairwise (x : Link) (l : List Link)
    (hx : qualityScore x.quality ≠ JsNum.nan)
    (hl : ∀ z ∈ l, qualityScore z.quality ≠ JsNum.nan)
    (h : l.Pairwise (fun a b => scoreNat b ≤ scoreNat a)) :
    (insertByQuality x l).Pairwise (fun a b => scoreNat b ≤ scoreNat a) := by
  induction l with
  | nil => simp [insertByQuality]
  | cons y ys ih =>
    simp only [insertByQuality]
    split
    · rename_i hle
      have hxy : scoreNat y ≤ scoreNat x :=
        (sortCompare_le x y hx (hl y (List.mem_cons_self _ _))).mp hle
      refine List.Pairwise.cons ?_ h
      intro z hz
      rcases List.mem_cons.mp hz with rfl | hz
      · exact hxy
      · exact le_trans (List.rel_of_pairwise_cons h hz) hxy
    · rename_i hgt
      have hxy : scoreNat x < scoreNat y := sortCompare_not_le x y hgt
      refine List.Pairwise.cons ?_
        (ih (fun z hz => hl z (List.mem_cons_of_mem _ hz)) h.of_cons)
      intro z hz
      rcases mem_insertByQuality.mp hz with rfl | hz
      · exact Nat.le_of_lt hxy
      · exact List.rel_of_pairwise_cons h hz

/-- The sort leaves a list of numeric-label links descending. -/
theorem sortByQuality_pairwise (l : List Link)
    (hl : ∀ z ∈ l, qualityScore z.quality ≠ JsNum.nan) :
    (sortByQuality l).Pairwise (fun a b => scoreNat b ≤ scoreNat a) := by
  induction l with
  | nil => simp [sortByQuality]
  | cons x xs ih =>
    refine insertByQuality_pairwise x _ (hl x (List.mem_cons_self _ _)) ?_
      (ih (fun z hz => hl z (List.mem_cons_of_mem _ hz)))
    intro z hz
    exact hl z (List.mem_cons_of_mem _ ((sortByQuality_perm xs).mem_iff.mp hz))

/-- Stability of one insertion, phrased through score-class filters: the
elements passed over by the insertion all score strictly higher than the
inserted element (a strict comparator result forces numeric scores), so
each score class keeps its order with the inserted element in front of
its own class. -/
theorem filter_insertByQuality (s : Nat) (x : Link) (l : List Link) :
    (insertByQuality x l).filter (fun d => scoreNat d == s) =
      if scoreNat x = s then
        x :: l.filter (fun d => scoreNat d == s)
      else l.filter (fun d => scoreNat d == s) := by
  induction l with
  | nil =>
    by_cases hx : scoreNat x = s
    · simp [insertByQuality, List.filter_cons, beq_iff_eq, hx]
    · simp [insertByQuality, List.filter_cons, beq_iff_eq, hx]
  | cons y ys ih =>
    simp only [insertByQuality]
    split
    · rename_i hle
      by_cases hx : scoreNat x = s
      · simp [List.filter_cons, hx]
      · simp [List.filter_cons, hx]
    · rename_i hgt
      have hy : scoreNat x < scoreNat y := sortCompare_not_le x y hgt
      by_cases hx : scoreNat x = s
      · have hys : (scoreNat y == s) = false := by
          simp only [beq_eq_false_iff_ne, ne_eq]
          omega
        simp [List.filter_cons, hys, ih, hx]
      · simp only [List.filter_cons, ih, if_neg hx]

/-- Stability of the sort: every score class appears in the output in
exactly its input order. -/
theorem filter_sortByQuality (s : Nat) (l : List Link) :
    (sortByQuality l).filter (fun d => scoreNat d == s) =
      l.filter (fun d => scoreNat d == s) := by
  induction l with
  | nil => simp [sortByQuality]
  | cons x xs ih =>
    simp only [sortByQuality, filter_insertByQuality, List.filter_cons]
    by_cases hx : scoreNat x = s
    · simp [hx, ih]
    · simp [hx, ih]

/-!  General lemmas about the two-phase convert loops. -/

/-- Taking `min n (length l)` elements is the same as taking `n`. -/
theorem take_min_length {α : Type} (n : Nat) (l : List α) :
    l.take (min n l.length) = l.take n := by
  rcases Nat.le_total n l.length with h | h
  · rw [Nat.min_eq_left h]
  · rw [Nat.min_eq_right h, List.take_length, List.take_of_length_le h]

/-- The y2mate convert loop issues exactly one request per candidate it
is given, in order, carrying the `vid` and `k` of that candidate. -/
theorem y2mateConvertLoop_reqs (env : Env) (items : List Item) :
    (y2mateConvertLoop env items).2 = items.map (fun it => (it.vid, it.k)) := by
  induction items with
  | nil => rfl
  | cons item rest ih => simp [y2mateConvertLoop, ih]

/-- The 9convert convert loop issues exactly one request per candidate
it is given, in order, carrying the `k` of that candidate. -/
theorem nineConvertLoop_reqs (env : Env) (items : List Item) :
    (nineConvertLoop env items).2 = items.map (fun it => it.k) := by
  induction items with
  | nil => rfl
  | cons item rest ih => simp [nineConvertLoop, ih]

/-- Every link the y2mate convert loop produces comes from one of its
candidates via one convert step. -/
theorem mem_y2mateConvertLoop (env : Env) (items : List Item) (l : Link)
    (h : l ∈ (y2mateConvertLoop env items).1) :
    ∃ it ∈ items, y2mateConvertStep env it = some l := by
  induction items with
  | nil => simp [y2mateConvertLoop] at h
  | cons item rest ih =>
    simp only [y2mateConvertLoop] at h
    rcases hstep : y2mateConvertStep env item with _ | l0
    · rw [hstep] at h
      obtain ⟨it, hmem, hit⟩ := ih h
      exact ⟨it, List.mem_cons_of_mem _ hmem, hit⟩
    · rw [hstep] at h
      rcases List.mem_cons.mp h with rfl | h
      · exact ⟨item, List.mem_cons_self _ _, hstep⟩
      · obtain ⟨it, hmem, hit⟩ := ih h
        exact ⟨it, List.mem_cons_of_mem _ hmem, hit⟩

/-- Every link the 9convert convert loop produces comes from one of its
candidates via one convert step. -/
theorem mem_nineConvertLoop (env : Env) (items : List Item) (l : Link)
    (h : l ∈ (nineConvertLoop env items).1) :
    ∃ it ∈ items, nineConvertStep env it = some l := by
  induction items with
  | nil => simp [nineConvertLoop] at h
  | cons item rest ih =>
    simp only [nineConvertLoop] at h
    rcases hstep : nineConvertStep env item with _ | l0
    · rw [hstep] at h
      obtain ⟨it, hmem, hit⟩ := ih h
      exact ⟨it, List.mem_cons_of_mem _ hmem, hit⟩
    · rw [hstep] at h
      rcases List.mem_cons.mp h with rfl | h
      · exact ⟨item, List.mem_cons_self _ _, hstep⟩
      · obtain ⟨it, hmem, hit⟩ := ih h
        exact ⟨it, List.mem_cons_of_mem _ hmem, hit⟩

/-- Field transport through a successful y2mate convert step. -/
theorem y2mateConvertStep_fields (env : Env) (it : Item) (l : Link)
    (h : y2mateConvertStep env it = some l) :
    l.quality = it.quality ∧ l.format = it.format ∧ l.type = it.type ∧
    l.service = "y2mate" := by
  unfold y2mateConvertStep at h
  split at h
  · simp at h
  · split at h
    · split at h
      · split at h
        · obtain rfl := Option.some.inj h
          exact ⟨rfl, rfl, rfl, rfl⟩
        · simp at h
      · simp at h
    · simp at h

/-- Field transport through a successful 9convert convert step. -/
theorem nineConvertStep_fields (env : Env) (it : Item) (l : Link)
    (h : nineConvertStep env it = some l) :
    l.quality = it.quality ∧ l.format = it.format ∧ l.type = it.type ∧
    l.service = "9convert" := by
  unfold nineConvertStep at h
  split at h
  · simp at h
  · split at h
    · split at h
      · split at h
        · obtain rfl := Option.some.inj h
          exact ⟨rfl, rfl, rfl, rfl⟩
        · simp at h
      · simp at h
    · simp at h

/-- The type discipline of `extractDownloadItems`: every produced item
is typed `audio` when its format is `mp3` or `m4a` and otherwise
carries the caller-supplied section type. -/
theorem extractDownloadItems_type (service : String) (videoId : Option String)
    (ty : String) (rows : List Row) (it : Item)
    (h : it ∈ extractDownloadItems service videoId ty rows) :
    it.type = if it.format = "mp3" ∨ it.format = "m4a" then "audio" else ty := by
  induction rows with
  | nil => simp [extractDownloadItems] at h
  | cons row rest ih =>
    simp only [extractDownloadItems] at h
    by_cases hb : row.hasBtn
    · rw [if_pos hb] at h
      rcases hkk : firstTruthyOpt [row.rel, row.dataK, row.dataKey] with _ | k
      · rw [hkk] at h
        exact ih h
      · rw [hkk] at h
        rcases List.mem_cons.mp h with rfl | h
        · rfl
        · exact ih h
    · rw [if_neg hb] at h
      exact ih h

/-- Every link of the ssyoutube anchor pass satisfies the audio/video
type rule induced by its own format. -/
theorem ssAnchorLinks_type (els : List Anchor) (l : Link)
    (h : l ∈ ssAnchorLinks els) :
    l.type = if l.format = "mp3" ∨ l.format = "m4a" then "audio" else "video" := by
  induction els with
  | nil => simp [ssAnchorLinks] at h
  | cons el rest ih =>
    simp only [ssAnchorLinks] at h
    split at h
    · split at h
      · rcases List.mem_cons.mp h with rfl | h
        · rfl
        · exact ih h
      · exact ih h
    · exact ih h

/-- The script-URL fold preserves the type rule: it only appends
`mp4`/`video` links. -/
theorem ssScriptFold_type (urls : List String) (downloads : List Link)
    (hd : ∀ l ∈ downloads,
      l.type = if l.format = "mp3" ∨ l.format = "m4a" then "audio" else "video")
    (l : Link) (h : l ∈ ssScriptFold downloads urls) :
    l.type = if l.format = "mp3" ∨ l.format = "m4a" then "audio" else "video" := by
  induction urls generalizing downloads with
  | nil => exact hd l h
  | cons u rest ih =>
    simp only [ssScriptFold] at h
    split at h
    · refine ih _ ?_ h
      intro l2 h2
      rcases List.mem_append.mp h2 with h2 | h2
      · exact hd l2 h2
      · rcases List.mem_cons.mp h2 with rfl | h2
        · rfl
        · simp at h2
    · exact ih downloads hd h

/-- Every link of the loader.to anchor pass is typed `audio` exactly
when its format is `mp3`. -/
theorem loaderAnchorLinks_type (els : List Anchor) (l : Link)
    (h : l ∈ loaderAnchorLinks els) :
    l.type = if l.format = "mp3" then "audio" else "video" := by
  induction els with
  | nil => simp [loaderAnchorLinks] at h
  | cons el rest ih =>
    simp only [loaderAnchorLinks] at h
    split at h
    · split at h
      · rcases List.mem_cons.mp h with rfl | h
        · rfl
        · exact ih h
      · exact ih h
    · exact ih h

/-- Case characterization: missing video id. -/
theorem parseY2MateRun_no_id (env : Env) (url : String)
    (hv : getVideoId url = none) :
    parseY2MateRun env url = ⟨.error .noVideoId, [], []⟩ := by
  simp only [parseY2MateRun, hv]

/-- Case characterization: analyze transport error. -/
theorem parseY2MateRun_net (env : Env) (url : String) (vid : String) (e : String)
    (hv : getVideoId url = some vid) (ha : env.y2mateAnalyze url = .error e) :
    parseY2MateRun env url = ⟨.error (.net e), [], []⟩ := by
  simp only [parseY2MateRun, hv, ha]

/-- Case characterization: analyze rejected by status sentinel. -/
theorem parseY2MateRun_status (env : Env) (url : String) (vid : String)
    (resp : AjaxResp) (hv : getVideoId url = some vid)
    (ha : env.y2mateAnalyze url = .ok resp) (hs : ¬resp.status = "ok") :
    parseY2MateRun env url = ⟨.error (.analyzeFailed resp.mess), [], []⟩ := by
  simp only [parseY2MateRun, hv, ha, if_neg hs]

/-- Case characterization: successful analyze phase. -/
theorem parseY2MateRun_ok (env : Env) (url : String) (vid : String)
    (resp : AjaxResp) (hv : getVideoId url = some vid)
    (ha : env.y2mateAnalyze url = .ok resp) (hs : resp.status = "ok") :
    parseY2MateRun env url =
      (let items :=
        extractDownloadItems "y2mate" (some vid) "video" (env.y2mateVideoRows resp.result) ++
        extractDownloadItems "y2mate" (some vid) "audio" (env.y2mateAudioRows resp.result)
       ⟨.ok (y2mateConvertLoop env (items.take (min 3 items.length))).1, items,
        (y2mateConvertLoop env (items.take (min 3 items.length))).2⟩) := by
  simp only [parseY2MateRun, hv, ha, if_pos hs]

/-- Case characterization: analyze transport error (9convert). -/
theorem parse9ConvertRun_net (env : Env) (url : String) (e : String)
    (ha : env.nineAnalyze url = .error e) :
    parse9ConvertRun env url = ⟨.error (.net e), [], []⟩ := by
  simp only [parse9ConvertRun, ha]

/-- Case characterization: analyze rejected by status sentinel
(9convert). -/
theorem parse9ConvertRun_status (env : Env) (url : String) (resp : AjaxResp)
    (ha : env.nineAnalyze url = .ok resp) (hs : ¬resp.status = "ok") :
    parse9ConvertRun env url = ⟨.error (.analyzeFailed none), [], []⟩ := by
  simp only [parse9ConvertRun, ha, if_neg hs]

/-- Case characterization: successful analyze phase (9convert). -/
theorem parse9ConvertRun_ok (env : Env) (url : String) (resp : AjaxResp)
    (ha : env.nineAnalyze url = .ok resp) (hs : resp.status = "ok") :
    parse9ConvertRun env url =
      (let items := extractDownloadItems "9convert" none "video" (env.nineRows resp.result)
       ⟨.ok (nineConvertLoop env (items.take (min 2 items.length))).1, items,
        (nineConvertLoop env (items.take (min 2 items.length))).2⟩) := by
  simp only [parse9ConvertRun, ha, if_pos hs]

/-- Every link `parseY2Mate` returns stems from an analyze-phase
candidate of the run, keeping its quality, format and type. -/
theorem parseY2Mate_link_from_candidate (env : Env) (url : String) (l : Link)
    (h : l ∈ parseY2Mate env url) :
    ∃ it ∈ (parseY2MateRun env url).candidates,
      l.quality = it.quality ∧ l.format = it.format ∧ l.type = it.type := by
  unfold parseY2Mate at h
  rcases hv : getVideoId url with _ | vid
  · rw [parseY2MateRun_no_id env url hv] at h
    simp at h
  · rcases ha : env.y2mateAnalyze url with e | resp
    · rw [parseY2MateRun_net env url vid e hv ha] at h
      simp at h
    · by_cases hs : resp.status = "ok"
      · rw [parseY2MateRun_ok env url vid resp hv ha hs] at h ⊢
        simp only at h ⊢
        obtain ⟨it, hmem, hstep⟩ := mem_y2mateConvertLoop _ _ _ h
        obtain ⟨h1, h2, h3, _⟩ := y2mateConvertStep_fields _ _ _ hstep
        exact ⟨it, List.mem_of_mem_take hmem, h1, h2, h3⟩
      · rw [parseY2MateRun_status env url vid resp hv ha hs] at h
        simp at h

/-- Every link `parse9Convert` returns stems from an analyze-phase
candidate of the run, keeping its quality, format and type. -/
theorem parse9Convert_link_from_candidate (env : Env) (url : String) (l : Link)
    (h : l ∈ parse9Convert env url) :
    ∃ it ∈ (parse9ConvertRun env url).candidates,
      l.quality = it.quality ∧ l.format = it.format ∧ l.type = it.type := by
  unfold parse9Convert at h
  rcases ha : env.nineAnalyze url with e | resp
  · rw [parse9ConvertRun_net env url e ha] at h
    simp at h
  · by_cases hs : resp.status = "ok"
    · rw [parse9ConvertRun_ok env url resp ha hs] at h ⊢
      simp only at h ⊢
      obtain ⟨it, hmem, hstep⟩ := mem_nineConvertLoop _ _ _ h
      obtain ⟨h1, h2, h3, _⟩ := nineConvertStep_fields _ _ _ hstep
      exact ⟨it, List.mem_of_mem_take hmem, h1, h2, h3⟩
    · rw [parse9ConvertRun_status env url resp ha hs] at h
      simp at h

/-!  Concrete links used in witnesses and counterexamples. -/

/-- A 720p mp4 link as first found by y2mate. -/
def linkA : Link :=
  ⟨"https://cdn.example.com/v", "720p", "mp4", none, "video", "y2mate"⟩

/-- The same rendition as later found by 9convert. -/
def linkB : Link :=
  ⟨"https://cdn.example.com/v", "720p", "mp4", none, "video", "9convert"⟩

/-- A link whose quality label absorbs part of the format into the
joined deduplication key. -/
def linkCollide1 : Link :=
  ⟨"https://cdn.example.com/v", "720p-mp4", "x", none, "video", "y2mate"⟩

/-- A different (quality, format) split producing the same joined key. -/
def linkCollide2 : Link :=
  ⟨"https://cdn.example.com/v", "720p", "mp4-x", none, "video", "9convert"⟩

/-- Links used in the ranking example, differing in quality. -/
def link360 : Link :=
  ⟨"https://cdn.example.com/c", "360p", "mp4", none, "video", "ssyoutube"⟩

/-- 1080p example link. -/
def link1080 : Link :=
  ⟨"https://cdn.example.com/a", "1080p", "mp4", none, "video", "y2mate"⟩

/-- Auto-quality example link. -/
def linkAuto : Link :=
  ⟨"https://cdn.example.com/d", "auto", "mp4", none, "video", "loader.to"⟩

/-- 720p example link. -/
def link720 : Link :=
  ⟨"https://cdn.example.com/b", "720p", "mp4", none, "video", "9convert"⟩

/-- Modelled from the spec words of the ranking claim: the idealized
score table exactly as the spec states it — a pure lookup sending any
label not in the table to 0, with no prototype-chain behaviour.  Used
only to state what the claim expects of a label, for comparison with
the embedded `qualityScore`. -/
def specQualityScore (q : String) : Nat :=
  (qualityOrderOwn (toLowerStr q)).getD 0

/-- A link whose quality label collides with the inherited
`Object.prototype.constructor` property. -/
def cLink : Link :=
  ⟨"https://cdn.example.com/e", "constructor", "mp4", none, "video", "y2mate"⟩

/-- The audio-typed mp4 link that `parseY2Mate` produces in `envAud`. -/
def audLink : Link :=
  ⟨"https://cdn.example.com/download/a1", "128kbps", "mp4", some "unknown", "audio", "y2mate"⟩

/-- The mp3 link that `parseLoaderTo` produces in `envLoaderMp3`. -/
def mp3Link : Link :=
  ⟨"https://cdn.example.com/f.mp3", "128kbps", "mp3", none, "audio", "loader.to"⟩

/-!  Claim theorems. -/

/-- C4: whenever two links agree on directUrl, quality and format they
share the deduplication key, and `removeDuplicates` keeps, per key,
exactly the first occurrence in input (adapter-invocation) order as an
unchanged record — its serviceName included — dropping every later
duplicate: the output is a sublist of the input, output keys are
pairwise distinct, every input key is represented, and every survivor is
the first input element bearing its key. -/
theorem c4_dedup_first_occurrence :
    ∀ ds : List Link,
      (removeDuplicates ds).Sublist ds ∧
      ((removeDuplicates ds).map dedupKey).Nodup ∧
      (∀ d ∈ ds, ∃ e ∈ removeDuplicates ds, dedupKey e = dedupKey d) ∧
      (∀ d ∈ removeDuplicates ds, ds.find? (fun e => dedupKey e == dedupKey d) = some d) ∧
      (∀ d1 d2 : Link, d1.directUrl = d2.directUrl → d1.quality = d2.quality →
        d1.format = d2.format → dedupKey d1 = dedupKey d2) := by
  intro ds
  refine ⟨removeDuplicatesAux_sublist [] ds, removeDuplicatesAux_nodup [] ds, ?_, ?_, ?_⟩
  · intro d hd
    exact removeDuplicatesAux_covers [] ds d hd (by simp)
  · intro d hd
    exact (removeDuplicatesAux_first [] ds d hd).2
  · intro d1 d2 h1 h2 h3
    unfold dedupKey
    rw [h1, h2, h3]

/-- C4 witness: two links identical up to serviceName; the first one,
with its serviceName, is the unique survivor. -/
theorem c4_witness :
    (removeDuplicates [linkA, linkB]).Sublist [linkA, linkB] ∧
    [linkA, linkB].find? (fun e => dedupKey e == dedupKey linkA) = some linkA := by
  refine ⟨(c4_dedup_first_occurrence [linkA, linkB]).1, ?_⟩
  exact (c4_dedup_first_occurrence [linkA, linkB]).2.2.2.1 linkA (by decide)

/-- C10: the deduplication key is the plain `-`-join of the three
fields, so the two distinct triples (same directUrl, quality `720p-mp4`
with format `x` versus quality `720p` with format `mp4-x`) collide and
`removeDuplicates` drops the later link even though the triples
differ. -/
theorem c10_dedup_key_collision :
    (linkCollide1.quality, linkCollide1.format) ≠ (linkCollide2.quality, linkCollide2.format) ∧
    linkCollide1.directUrl = linkCollide2.directUrl ∧
    dedupKey linkCollide1 = dedupKey linkCollide2 ∧
    removeDuplicates [linkCollide1, linkCollide2] = [linkCollide1] := by
  decide

/-- C5 counterexample: the label `constructor` is not in the table, so
the claim scores it 0 and expects it sorted below `1080p`; but the
object lookup of the source hits the inherited
`Object.prototype.constructor`, which is truthy, survives `|| 0`, and
makes the comparator NaN — treated as +0, so the pair compares equal
and the single comparison of the two-element sort keeps input order
instead of putting `1080p` first. -/
theorem c5_counterexample :
    specQualityScore "constructor" = 0 ∧
    specQualityScore "1080p" = 5 ∧
    qualityScore "constructor" = JsNum.nan ∧
    sortCompare cLink link1080 = 0 ∧
    sortCompare link1080 cLink = 0 ∧
    sortByQuality [cLink, link1080] = [cLink, link1080] ∧
    ¬sortByQuality [cLink, link1080] = [link1080, cLink] := by
  decide

/-- C5 (amended): `sortByQuality` permutes its input; on inputs whose
lowercased labels are not inherited Object.prototype property names
(so every score is numeric and the comparator is consistent) it is the
stable descending sort by the fixed case-insensitive table, with each
score class keeping its input order; the documented example sorts as
stated; the table scores are as documented, labels absent from both
the table and the prototype chain score 0, and away from
prototype-chain labels the embedded score agrees with the idealized
table of the spec.  Labels that hit the prototype chain (reachable
after lowercasing: `constructor` and `__proto__`) instead make the
comparator NaN and compare equal to everything. -/
theorem c5_ranking_stable_sort_amended :
    (∀ ds : List Link, (sortByQuality ds).Perm ds) ∧
    (∀ ds : List Link, (∀ d ∈ ds, qualityScore d.quality ≠ JsNum.nan) →
      (sortByQuality ds).Pairwise (fun a b => scoreNat b ≤ scoreNat a)) ∧
    (∀ (ds : List Link) (s : Nat), (∀ d ∈ ds, qualityScore d.quality ≠ JsNum.nan) →
      (sortByQuality ds).filter (fun d => scoreNat d == s) =
        ds.filter (fun d => scoreNat d == s)) ∧
    (sortByQuality [link360, link1080, linkAuto, link720]).map (fun d => d.quality) =
      ["1080p", "720p", "360p", "auto"] ∧
    (qualityScore "2160p" = .num 7 ∧ qualityScore "4k" = .num 7 ∧
     qualityScore "1440p" = .num 6 ∧ qualityScore "1080p" = .num 5 ∧
     qualityScore "HD" = .num 5 ∧ qualityScore "high" = .num 5 ∧
     qualityScore "720p" = .num 4 ∧ qualityScore "480p" = .num 3 ∧
     qualityScore "SD" = .num 3 ∧ qualityScore "360p" = .num 2 ∧
     qualityScore "240p" = .num 1 ∧ qualityScore "low" = .num 1 ∧
     qualityScore "auto" = .num 0 ∧ qualityScore "unknown" = .num 0 ∧
     qualityScore "Ultra-Fancy-Label" = .num 0) ∧
    (∀ q : String, qualityScore q ≠ JsNum.nan →
      qualityScore q = .num (specQualityScore q)) := by
  refine ⟨sortByQuality_perm,
    fun ds h => sortByQuality_pairwise ds h,
    fun ds s _ => filter_sortByQuality s ds,
    by decide, by decide, ?_⟩
  intro q hq
  simp only [qualityScore, specQualityScore] at hq ⊢
  rcases ho : qualityOrderOwn (toLowerStr q) with _ | n
  · by_cases hc : protoProps.contains (toLowerStr q)
    · simp [ho, hc] at hq
      exact absurd (by simpa using hc) hq
    · simp [hc]
      simpa using hc
  · rfl

/-- C5 witness: the numeric-label hypotheses discharged on the
four-link example. -/
theorem c5_witness :
    (sortByQuality [link360, link1080, linkAuto, link720]).Pairwise
      (fun a b => scoreNat b ≤ scoreNat a) ∧
    (sortByQuality [link360, link1080, linkAuto, link720]).filter
        (fun d => scoreNat d == 0) =
      [link360, link1080, linkAuto, link720].filter (fun d => scoreNat d == 0) :=
  ⟨c5_ranking_stable_sort_amended.2.1 [link360, link1080, linkAuto, link720] (by decide),
   c5_ranking_stable_sort_amended.2.2.1 [link360, link1080, linkAuto, link720] 0 (by decide)⟩

/-- C7: `getVideoId` tries its five platform patterns in the documented
order, returns the capture of the first pattern that matches, returns
none when no pattern matches, and on `https://youtu.be/abc123` returns
`abc123`. -/
theorem c7_video_id_precedence :
    (∀ url g, matchYt1 url = some g → getVideoId url = some g) ∧
    (∀ url g, matchYt1 url = none → matchYt2 url = some g → getVideoId url = some g) ∧
    (∀ url g, matchYt1 url = none → matchYt2 url = none → matchInsta url = some g →
      getVideoId url = some g) ∧
    (∀ url g, matchYt1 url = none → matchYt2 url = none → matchInsta url = none →
      matchTiktok url = some g → getVideoId url = some g) ∧
    (∀ url, matchYt1 url = none → matchYt2 url = none → matchInsta url = none →
      matchTiktok url = none → getVideoId url = matchFb url) ∧
    getVideoId "https://youtu.be/abc123" = some "abc123" := by
  refine ⟨?_, ?_, ?_, ?_, ?_, by decide⟩
  · intro url g h
    simp [getVideoId, h]
  · intro url g h1 h
    simp [getVideoId, h1, h]
  · intro url g h1 h2 h
    simp [getVideoId, h1, h2, h]
  · intro url g h1 h2 h3 h
    simp [getVideoId, h1, h2, h3, h]
  · intro url h1 h2 h3 h4
    simp [getVideoId, h1, h2, h3, h4]

/-- C7 witness: the first pattern matches the documented example and its
capture is returned. -/
theorem c7_witness : getVideoId "https://youtu.be/abc123" = some "abc123" :=
  c7_video_id_precedence.1 "https://youtu.be/abc123" "abc123" (by decide)

/-- C2: no adapter ever raises to its caller — each returns a plain
list for every environment (totality of the embedded functions), and
whenever the body of an adapter fails with any internal error (missing
video id, transport error, or a non-ok status sentinel), the outer catch
absorbs it and the adapter returns the empty list. -/
theorem c2_adapters_fail_soft :
    ∀ (env : Env) (url : String),
      (∀ e, (parseY2MateRun env url).body = .error e → parseY2Mate env url = []) ∧
      (∀ e, (parse9ConvertRun env url).body = .error e → parse9Convert env url = []) ∧
      (∀ e, parseSSYouTubeBody env url = .error e → parseSSYouTube env url = []) ∧
      (∀ e, parseLoaderToBody env url = .error e → parseLoaderTo env url = []) := by
  intro env url
  refine ⟨fun e h => ?_, fun e h => ?_, fun e h => ?_, fun e h => ?_⟩
  · unfold parseY2Mate
    rw [h]
  · unfold parse9Convert
    rw [h]
  · unfold parseSSYouTube
    rw [h]
  · unfold parseLoaderTo
    rw [h]

/-- C2 witness: in the all-errors environment every body fails with a
transport error, and every adapter returns the empty list. -/
theorem c2_witness :
    parseY2Mate envNull goodUrl = [] ∧ parse9Convert envNull goodUrl = [] ∧
    parseSSYouTube envNull goodUrl = [] ∧ parseLoaderTo envNull goodUrl = [] :=
  ⟨(c2_adapters_fail_soft envNull goodUrl).1 (.net "net") rfl,
   (c2_adapters_fail_soft envNull goodUrl).2.1 (.net "net") rfl,
   (c2_adapters_fail_soft envNull goodUrl).2.2.1 (.net "net") rfl,
   (c2_adapters_fail_soft envNull goodUrl).2.2.2 (.net "net") rfl⟩

/-- C1 counterexample: on an invalid input the result carries
success:false, empty downloads and services, and no adapter is invoked,
but the claimed `total = 0` is false — the failure object of the source
has no `total` field at all (it reads as `undefined`, embedded as
`none`). -/
theorem c1_counterexample :
    isValidUrl "not a url" = false ∧
    (getAllDirectUrls envNull "not a url").success = false ∧
    (getAllDirectUrls envNull "not a url").downloads = [] ∧
    (getAllDirectUrls envNull "not a url").services = [] ∧
    (getAllDirectUrlsRun envNull "not a url").2 = [] ∧
    ¬(getAllDirectUrls envNull "not a url").total = some 0 := by
  decide

/-- C1 (amended): for every input rejected by the URL check,
`getAllDirectUrls` returns success:false with the invalid-URL
diagnostic, empty downloads and services and an ABSENT total field
(`undefined`, not 0), and invokes no service adapter. -/
theorem c1_invalid_input_amended :
    ∀ (env : Env) (url : String), isValidUrl url = false →
      getAllDirectUrlsRun env url =
        ({ success := false, error := some "Invalid URL format",
           downloads := [], services := [], total := none }, []) := by
  intro env url h
  simp [getAllDirectUrlsRun, h]

/-- C1 witness: the amended statement at the concrete invalid input. -/
theorem c1_witness :
    getAllDirectUrlsRun envNull "not a url" =
      ({ success := false, error := some "Invalid URL format",
         downloads := [], services := [], total := none }, []) :=
  c1_invalid_input_amended envNull "not a url" (by decide)

/-- C6: for every environment, y2mate issues at most 3 convert requests
and 9convert at most 2, always for the leading prefix of the
analyze-phase candidate list (carrying the tokens of those candidates); in
particular with ten candidates on offer, y2mate converts 3 and 9convert
converts 2. -/
theorem c6_two_phase_bounding :
    (∀ (env : Env) (url : String),
      (parseY2MateRun env url).convertReqs.length ≤ 3 ∧
      (parseY2MateRun env url).convertReqs =
        ((parseY2MateRun env url).candidates.take 3).map (fun it => (it.vid, it.k))) ∧
    (∀ (env : Env) (url : String),
      (parse9ConvertRun env url).convertReqs.length ≤ 2 ∧
      (parse9ConvertRun env url).convertReqs =
        ((parse9ConvertRun env url).candidates.take 2).map (fun it => it.k)) ∧
    (parseY2MateRun envTen goodUrl).candidates.length = 10 ∧
    (parseY2MateRun envTen goodUrl).convertReqs.length = 3 ∧
    (parse9ConvertRun envTen goodUrl).candidates.length = 10 ∧
    (parse9ConvertRun envTen goodUrl).convertReqs.length = 2 := by
  refine ⟨?_, ?_, by decide, by decide, by decide, by decide⟩
  · intro env url
    have key : (parseY2MateRun env url).convertReqs =
        ((parseY2MateRun env url).candidates.take 3).map (fun it => (it.vid, it.k)) := by
      rcases hv : getVideoId url with _ | vid
      · rw [parseY2MateRun_no_id env url hv]
        rfl
      · rcases ha : env.y2mateAnalyze url with e | resp
        · rw [parseY2MateRun_net env url vid e hv ha]
          rfl
        · by_cases hs : resp.status = "ok"
          · rw [parseY2MateRun_ok env url vid resp hv ha hs]
            simp only [y2mateConvertLoop_reqs, take_min_length]
          · rw [parseY2MateRun_status env url vid resp hv ha hs]
            rfl
    refine ⟨?_, key⟩
    rw [key, List.length_map, List.length_take]
    exact Nat.min_le_left _ _
  · intro env url
    have key : (parse9ConvertRun env url).convertReqs =
        ((parse9ConvertRun env url).candidates.take 2).map (fun it => it.k) := by
      rcases ha : env.nineAnalyze url with e | resp
      · rw [parse9ConvertRun_net env url e ha]
        rfl
      · by_cases hs : resp.status = "ok"
        · rw [parse9ConvertRun_ok env url resp ha hs]
          simp only [nineConvertLoop_reqs, take_min_length]
        · rw [parse9ConvertRun_status env url resp ha hs]
          rfl
    refine ⟨?_, key⟩
    rw [key, List.length_map, List.length_take]
    exact Nat.min_le_left _ _

/-!  Helper lemmas for the remaining claims. -/

/-- Stripping the lowercase http scheme from a string that begins with
it. -/
theorem stripCIL_http (r : String) :
    stripCIL "http://".toList ("http://" ++ r).toList = some r.toList := by
  show stripCIL "http://".toList ("http://" ++ r).data = some r.data
  rw [String.data_append]
  rfl

/-- The https scheme never matches a string that begins with the plain
http scheme: the mismatch occurs inside the literal prefix. -/
theorem stripCIL_https_of_http (r : String) :
    stripCIL "https://".toList ("http://" ++ r).toList = none := by
  show stripCIL "https://".toList ("http://" ++ r).data = none
  rw [String.data_append]
  rfl

/-- Stripping the https scheme from a string that begins with it. -/
theorem stripCIL_https (r : String) :
    stripCIL "https://".toList ("https://" ++ r).toList = some r.toList := by
  show stripCIL "https://".toList ("https://" ++ r).data = some r.data
  rw [String.data_append]
  rfl

/-- A string beginning with a scheme literal is not empty. -/
theorem scheme_append_ne_empty (p r : String) (c : Char) (cs : List Char)
    (hp : p.data = c :: cs) : p ++ r ≠ "" := by
  intro hc
  have hdata := congrArg String.data hc
  rw [String.data_append, hp] at hdata
  simp at hdata

/-- Two links with different keys both survive deduplication, in
order. -/
theorem removeDuplicates_pair (l1 l2 : Link) (h : dedupKey l1 ≠ dedupKey l2) :
    removeDuplicates [l1, l2] = [l1, l2] := by
  have h2 : dedupKey l2 ≠ dedupKey l1 := fun he => h he.symm
  simp [removeDuplicates, removeDuplicatesAux, h2]

/-- Analyze-phase candidates of y2mate with format mp3 or m4a are typed
audio (candidates from the video section by the format rule, candidates
from the audio section in any case). -/
theorem parseY2MateRun_candidate_audio (env : Env) (url : String) (it : Item)
    (h : it ∈ (parseY2MateRun env url).candidates)
    (hf : it.format = "mp3" ∨ it.format = "m4a") : it.type = "audio" := by
  rcases hv : getVideoId url with _ | vid
  · rw [parseY2MateRun_no_id env url hv] at h
    simp at h
  · rcases ha : env.y2mateAnalyze url with e | resp
    · rw [parseY2MateRun_net env url vid e hv ha] at h
      simp at h
    · by_cases hs : resp.status = "ok"
      · rw [parseY2MateRun_ok env url vid resp hv ha hs] at h
        simp only at h
        rcases List.mem_append.mp h with h | h
        · rw [extractDownloadItems_type _ _ _ _ _ h, if_pos hf]
        · rw [extractDownloadItems_type _ _ _ _ _ h, if_pos hf]
      · rw [parseY2MateRun_status env url vid resp hv ha hs] at h
        simp at h

/-- Analyze-phase candidates of 9convert obey the format-driven type
rule with default section type video. -/
theorem parse9ConvertRun_candidate_type (env : Env) (url : String) (it : Item)
    (h : it ∈ (parse9ConvertRun env url).candidates) :
    it.type = if it.format = "mp3" ∨ it.format = "m4a" then "audio" else "video" := by
  rcases ha : env.nineAnalyze url with e | resp
  · rw [parse9ConvertRun_net env url e ha] at h
    simp at h
  · by_cases hs : resp.status = "ok"
    · rw [parse9ConvertRun_ok env url resp ha hs] at h
      simp only at h
      exact extractDownloadItems_type _ _ _ _ _ h
    · rw [parse9ConvertRun_status env url resp ha hs] at h
      simp at h

/-- C8 counterexample: `http://a` begins with the http scheme, yet the
pre-dispatch check rejects it and `getAllDirectUrls` returns the
invalid-URL failure without invoking any adapter — the check is
stricter than a scheme check. -/
theorem c8_counterexample :
    startsWithL "http://".toList "http://a".toList = true ∧
    isValidUrl "http://a" = false ∧
    (getAllDirectUrls envNull "http://a").success = false ∧
    (getAllDirectUrls envNull "http://a").error = some "Invalid URL format" ∧
    (getAllDirectUrlsRun envNull "http://a").2 = [] := by
  decide

/-- C8 (amended): the pre-dispatch check accepts a string beginning with
`http://` or `https://` provided the remainder also satisfies the rest
of the validation regex (first character not whitespace and not one of
`/ $ . ? #`, at least one further character that is not a line
terminator, and no whitespace afterwards); for such inputs
`getAllDirectUrls` proceeds to invoke all four adapters. -/
theorem c8_scheme_check_amended :
    ∀ (env : Env) (url r : String),
      url = "http://" ++ r ∨ url = "https://" ++ r →
      validAfterScheme r.toList = true →
      isValidUrl url = true ∧
      (getAllDirectUrlsRun env url).2 = ["y2mate", "9convert", "ssyoutube", "loader.to"] := by
  intro env url r hurl hval
  have hvalid : isValidUrl url = true := by
    rcases hurl with rfl | rfl
    · have hne : ("http://" ++ r) ≠ "" :=
        scheme_append_ne_empty "http://" r 'h' ['t', 't', 'p', ':', '/', '/'] rfl
      simp only [isValidUrl, stripCIL_https_of_http, stripCIL_http, hval,
        hne, ne_eq, not_false_eq_true]
      decide
    · have hne : ("https://" ++ r) ≠ "" :=
        scheme_append_ne_empty "https://" r 'h' ['t', 't', 'p', 's', ':', '/', '/'] rfl
      simp only [isValidUrl, stripCIL_https, hval,
        hne, ne_eq, not_false_eq_true]
      decide
  refine ⟨hvalid, ?_⟩
  simp [getAllDirectUrlsRun, hvalid]

/-- C8 witness: the amended statement at a concrete accepted URL. -/
theorem c8_witness :
    isValidUrl "https://youtu.be/abc123" = true ∧
    (getAllDirectUrlsRun envNull "https://youtu.be/abc123").2 =
      ["y2mate", "9convert", "ssyoutube", "loader.to"] :=
  c8_scheme_check_amended envNull "https://youtu.be/abc123" "youtu.be/abc123"
    (Or.inr (by decide)) (by decide)

/-- C3 counterexample: with one adapter failing internally (y2mate, a
transport error on analyze) and 9convert returning exactly two links,
the result needs not have total 2 — when the two links agree on the
deduplication key the total is 1.  The claim holds only for links that
are distinct under the key. -/
theorem c3_counterexample :
    parseY2Mate envDup goodUrl = [] ∧
    (parse9Convert envDup goodUrl).length = 2 ∧
    parseSSYouTube envDup goodUrl = [] ∧
    parseLoaderTo envDup goodUrl = [] ∧
    (getAllDirectUrls envDup goodUrl).services = ["9convert"] ∧
    (getAllDirectUrls envDup goodUrl).total = some 1 ∧
    ¬(getAllDirectUrls envDup goodUrl).total = some 2 := by
  decide

/-- C3 (amended): on a valid URL, if one adapter yields no links (for
example because it failed internally) and 9convert alone returns
exactly two links that differ on the deduplication key, the result is
success:true with total 2 and services exactly `9convert`; moreover, in
every run the name of an adapter appears in services exactly when that
adapter contributed at least one link. -/
theorem c3_adapter_isolation_amended :
    (∀ (env : Env) (url : String) (l1 l2 : Link),
      isValidUrl url = true →
      parseY2Mate env url = [] →
      parseSSYouTube env url = [] →
      parseLoaderTo env url = [] →
      parse9Convert env url = [l1, l2] →
      dedupKey l1 ≠ dedupKey l2 →
      (getAllDirectUrls env url).success = true ∧
      (getAllDirectUrls env url).total = some 2 ∧
      (getAllDirectUrls env url).services = ["9convert"]) ∧
    (∀ (env : Env) (url : String),
      isValidUrl url = true →
      (("y2mate" ∈ (getAllDirectUrls env url).services ↔
        0 < (parseY2Mate env url).length) ∧
       ("9convert" ∈ (getAllDirectUrls env url).services ↔
        0 < (parse9Convert env url).length) ∧
       ("ssyoutube" ∈ (getAllDirectUrls env url).services ↔
        0 < (parseSSYouTube env url).length) ∧
       ("loader.to" ∈ (getAllDirectUrls env url).services ↔
        0 < (parseLoaderTo env url).length))) := by
  constructor
  · intro env url l1 l2 hvalid h1 h3 h4 h2 hkey
    have hlen : (sortByQuality [l1, l2]).length = 2 :=
      (sortByQuality_perm [l1, l2]).length_eq
    simp only [getAllDirectUrls, getAllDirectUrlsRun, hvalid, if_true, h1, h2, h3, h4,
      List.length_nil, List.length_cons]
    simp [removeDuplicates_pair l1 l2 hkey, hlen]
  · intro env url hvalid
    simp only [getAllDirectUrls, getAllDirectUrlsRun, hvalid, if_true]
    by_cases e1 : 0 < (parseY2Mate env url).length <;>
      by_cases e2 : 0 < (parse9Convert env url).length <;>
        by_cases e3 : 0 < (parseSSYouTube env url).length <;>
          by_cases e4 : 0 < (parseLoaderTo env url).length <;>
            simp [e1, e2, e3, e4]

/-- C3 witness: the amended statement in the concrete isolation
environment, where y2mate fails internally and 9convert returns two
key-distinct links. -/
theorem c3_witness :
    (getAllDirectUrls envIso goodUrl).success = true ∧
    (getAllDirectUrls envIso goodUrl).total = some 2 ∧
    (getAllDirectUrls envIso goodUrl).services = ["9convert"] :=
  c3_adapter_isolation_amended.1 envIso goodUrl
    ⟨"https://cdn.example.com/download/v1", "720p", "mp4", none, "video", "9convert"⟩
    ⟨"https://cdn.example.com/download/v2", "360p", "mp4", none, "video", "9convert"⟩
    (by decide) (by decide) (by decide) (by decide) (by decide) (by decide)

/-- C9 counterexample: a y2mate audio-section row with no format
attribute defaults to format mp4 but is still typed audio, so the
produced link is audio without its format being mp3 or m4a. -/
theorem c9_counterexample :
    parseY2Mate envAud goodUrl = [audLink] ∧
    audLink.format = "mp4" ∧ audLink.type = "audio" ∧
    ¬(audLink.format = "mp3" ∨ audLink.format = "m4a") := by
  decide

/-- C9 (amended): a link is typed audio when its format is mp3 or m4a
(for parseLoaderTo, exactly when it is mp3 — m4a cannot occur there);
parse9Convert and parseSSYouTube links moreover satisfy the converse, so
audio holds exactly on mp3/m4a; y2mate links from the audio section of
the analyze page, however, are typed audio whatever their format, as
`extractDownloadItems` types an item audio when its format is mp3/m4a
and otherwise falls back to the caller-supplied section type. -/
theorem c9_media_type_amended :
    (∀ (service : String) (videoId : Option String) (ty : String) (rows : List Row),
      ∀ it ∈ extractDownloadItems service videoId ty rows,
        it.type = if it.format = "mp3" ∨ it.format = "m4a" then "audio" else ty) ∧
    (∀ (env : Env) (url : String), ∀ l ∈ parseY2Mate env url,
      (l.format = "mp3" ∨ l.format = "m4a") → l.type = "audio") ∧
    (∀ (env : Env) (url : String), ∀ l ∈ parse9Convert env url,
      l.type = if l.format = "mp3" ∨ l.format = "m4a" then "audio" else "video") ∧
    (∀ (env : Env) (url : String), ∀ l ∈ parseSSYouTube env url,
      l.type = if l.format = "mp3" ∨ l.format = "m4a" then "audio" else "video") ∧
    (∀ (env : Env) (url : String), ∀ l ∈ parseLoaderTo env url,
      l.type = if l.format = "mp3" then "audio" else "video") := by
  refine ⟨?_, ?_, ?_, ?_, ?_⟩
  · intro service videoId ty rows it h
    exact extractDownloadItems_type service videoId ty rows it h
  · intro env url l h hf
    obtain ⟨it, hmem, _, h2, h3⟩ := parseY2Mate_link_from_candidate env url l h
    rw [h3]
    exact parseY2MateRun_candidate_audio env url it hmem (by rw [← h2]; exact hf)
  · intro env url l h
    obtain ⟨it, hmem, _, h2, h3⟩ := parse9Convert_link_from_candidate env url l h
    rw [h3, h2]
    exact parse9ConvertRun_candidate_type env url it hmem
  · intro env url l h
    unfold parseSSYouTube at h
    rcases hb : parseSSYouTubeBody env url with e | links
    · rw [hb] at h
      simp at h
    · rw [hb] at h
      unfold parseSSYouTubeBody at hb
      rcases hg : env.ssGet (ssRewriteUrl url) with e2 | html
      · rw [hg] at hb
        simp at hb
      · rw [hg] at hb
        obtain rfl := Except.ok.inj hb
        exact ssScriptFold_type _ _ (fun l2 h2 => ssAnchorLinks_type _ _ h2) l h
  · intro env url l h
    unfold parseLoaderTo parseLoaderToBody at h
    rcases hv : getVideoId url with _ | vid
    · simp only [hv] at h
      simp at h
    · simp only [hv] at h
      rcases hg : env.loaderGet ("https://loader.to/api/button/dd/" ++ vid) with e2 | html
      · simp only [hg] at h
        simp at h
      · simp only [hg] at h
        exact loaderAnchorLinks_type _ l h

/-- C9 witness: the loader.to rule applied to the concrete mp3 link
produced in `envLoaderMp3`. -/
theorem c9_witness :
    mp3Link.type = if mp3Link.format = "mp3" then "audio" else "video" :=
  c9_media_type_amended.2.2.2.2 envLoaderMp3 goodUrl mp3Link (by decide)
